import Mathlib

/-!
# Verification of the valkeysender resilient dispatch engine

Shallow embedding of the Go library `prilive-com/valkeysender` (files
`valkeysender/sender.go`, `valkeysender/serializer.go`, `valkeysender/config.go`,
`valkeysender/types.go`) together with proofs about its specified behaviour.

Modelling conventions:
* Go byte slices and Go strings (which are byte sequences) are modelled as
  `List Int` over an abstract byte alphabet; none of the verified properties
  depends on the 0..255 range of a byte.
* `time.Now()` is modelled as reading a strictly increasing logical clock
  (a counter incremented on every read), the behaviour of a monotone
  nanosecond clock: two separate reads yield distinct instants.
* `uuid.New()` is modelled as a fresh-name generator (a counter), capturing
  exactly the freshness/uniqueness of generated UUIDs.
* Durations are `Int` nanoseconds, as in Go's `time.Duration`.
* Fallible Go functions returning `error` become `Except`.
-/

namespace ValkeySender

/-! ## Message codec (serializer.go)

The default codec `JSONSerializer` passes strings and byte slices through
unchanged and otherwise encodes via `encoding/json`.  The `encoding/json`
package is an external collaborator whose source is not part of this
repository; following §4.5 of the spec its structured encoding is modelled
as a self-describing format over structured values. -/

mutual
/-- Structured (JSON-encodable) values: null, booleans, numbers, strings and
arrays, mutually with the array spine so that structural induction is
available. -/
inductive Jval : Type where
  | jnull : Jval
  | jbool : Bool → Jval
  | jnum : Int → Jval
  | jstr : List Int → Jval
  | jarr : Jarr → Jval
/-- Array spine of structured values. -/
inductive Jarr : Type where
  | anil : Jarr
  | acons : Jval → Jarr → Jarr
end

/-- Number of elements of an array spine. -/
def alen : Jarr → Nat
  | .anil => 0
  | .acons _ t => alen t + 1

mutual
/-- Modelled from the spec: §4.5 requires the default codec to "encode as a
self-describing structured format (e.g., a JSON-like object notation)" — the
concrete byte grammar of `encoding/json.Marshal` is external to this
repository.  `enc` is such a self-describing encoding: a tag byte followed by
the construct's data, arrays and strings length-prefixed. -/
def enc : Jval → List Int
  | .jnull => [0]
  | .jbool b => [1, if b then 1 else 0]
  | .jnum n => [2, n]
  | .jstr s => 3 :: (s.length : Int) :: s
  | .jarr a => 4 :: (alen a : Int) :: encA a
/-- Concatenated encodings of the elements of an array spine. -/
def encA : Jarr → List Int
  | .anil => []
  | .acons h t => enc h ++ encA t
end

mutual
/-- Modelled from the spec: §4.5 "deserialization mirrors this: …
structured decode otherwise".  Fuel-indexed decoder for `enc`; returns the
decoded value and the unconsumed remainder. -/
def dec : Nat → List Int → Option (Jval × List Int)
  | 0, _ => none
  | _ + 1, 0 :: r => some (.jnull, r)
  | _ + 1, 1 :: b :: r => some (.jbool (b == 1), r)
  | _ + 1, 2 :: n :: r => some (.jnum n, r)
  | _ + 1, 3 :: len :: r =>
      if 0 ≤ len ∧ len.toNat ≤ r.length then
        some (.jstr (r.take len.toNat), r.drop len.toNat)
      else none
  | f + 1, 4 :: len :: r =>
      if 0 ≤ len then
        match decA f len.toNat r with
        | some (a, r') => some (.jarr a, r')
        | none => none
      else none
  | _ + 1, _ => none
/-- Decode `k` consecutive values (the elements of a length-`k` array). -/
def decA : Nat → Nat → List Int → Option (Jarr × List Int)
  | _, 0, r => some (.anil, r)
  | 0, _ + 1, _ => none
  | f + 1, k + 1, r =>
      match dec f r with
      | some (v, r') =>
          match decA f k r' with
          | some (a, r'') => some (.acons v a, r'')
          | none => none
      | none => none
end

mutual
/-- Fuel bound sufficient to decode a value. -/
def jsize : Jval → Nat
  | .jarr a => asize a + 1
  | _ => 1
/-- Fuel bound sufficient to decode an array spine. -/
def asize : Jarr → Nat
  | .anil => 1
  | .acons h t => jsize h + asize t
end

/-- Go values a caller can hand to the codec: text, binary, or a structured
value (`serializer.go` dispatches on `string`, `[]byte`, else JSON). -/
inductive GoValue : Type where
  | str : List Int → GoValue
  | bytes : List Int → GoValue
  | structured : Jval → GoValue

/-- Errors of `JSONSerializer.Serialize`. -/
inductive SerErr : Type where
  | nilMessage : SerErr
  deriving DecidableEq, Repr

/-- Errors of `JSONSerializer.Deserialize`. -/
inductive DeserErr : Type where
  | emptyData : DeserErr
  | unmarshal : DeserErr
  deriving DecidableEq, Repr

/-- Embedding of `JSONSerializer.Serialize` (serializer.go:17-39): nil input
is rejected, strings and byte slices pass through unchanged, anything else is
JSON-encoded (`enc` in the model; total on structured values). -/
def Serialize : Option GoValue → Except SerErr (List Int)
  | none => .error .nilMessage
  | some (.str s) => .ok s
  | some (.bytes b) => .ok b
  | some (.structured j) => .ok (enc j)

/-- The shape of the target pointer handed to `Deserialize`. -/
inductive TargetShape : Type where
  | tstr : TargetShape
  | tbytes : TargetShape
  | tstructured : TargetShape
  deriving DecidableEq, Repr

/-- Embedding of `JSONSerializer.Deserialize` (serializer.go:42-70): empty
data is rejected; a string or byte-slice target receives the bytes verbatim;
otherwise the data must decode completely as a structured value. -/
def Deserialize (data : List Int) (target : TargetShape) : Except DeserErr GoValue :=
  if data.isEmpty then .error .emptyData
  else
    match target with
    | .tstr => .ok (.str data)
    | .tbytes => .ok (.bytes data)
    | .tstructured =>
        match dec (data.length + 1) data with
        | some (j, []) => .ok (.structured j)
        | _ => .error .unmarshal

/-- The shape of a `GoValue`, used to pick the round-trip target. -/
def shapeOf : GoValue → TargetShape
  | .str _ => .tstr
  | .bytes _ => .tbytes
  | .structured _ => .tstructured

theorem jsize_pos (v : Jval) : 1 ≤ jsize v := by
  cases v <;> simp [jsize]

theorem asize_pos (a : Jarr) : 1 ≤ asize a := by
  cases a with
  | anil => simp [asize]
  | acons h t => have := jsize_pos h; simp [asize]; omega

/-- Decoding inverts encoding, given fuel at least the size of the value. -/
theorem dec_enc_aux (f : Nat) :
    (∀ v r, jsize v ≤ f → dec f (enc v ++ r) = some (v, r)) ∧
    (∀ a r, asize a ≤ f → decA f (alen a) (encA a ++ r) = some (a, r)) := by
  induction f with
  | zero =>
      constructor
      · intro v r h; have := jsize_pos v; omega
      · intro a r h; have := asize_pos a; omega
  | succ f ih =>
      constructor
      · intro v r h
        cases v with
        | jnull => simp [enc, dec]
        | jbool b => cases b <;> simp [enc, dec]
        | jnum n => simp [enc, dec]
        | jstr s =>
            have h1 : (0 : Int) ≤ (s.length : Int) := by positivity
            have h2 : ((s.length : Int)).toNat = s.length := Int.toNat_natCast s.length
            simp only [enc, List.cons_append, dec, h2]
            rw [if_pos]
            · rw [List.take_left, List.drop_left]
            · constructor
              · exact h1
              · simp
        | jarr a =>
            have ha : asize a ≤ f := by simp [jsize] at h; omega
            have h1 : ((alen a : Int)).toNat = alen a := Int.toNat_natCast (alen a)
            simp only [enc, List.cons_append, dec, h1]
            rw [if_pos (by positivity)]
            rw [ih.2 a r ha]
      · intro a r h
        cases a with
        | anil => simp [alen, encA, decA]
        | acons hd tl =>
            have hhd : jsize hd ≤ f := by
              have := asize_pos tl; simp [asize] at h; omega
            have htl : asize tl ≤ f := by
              have := jsize_pos hd; simp [asize] at h; omega
            simp only [alen, encA, List.append_assoc, decA]
            rw [ih.1 hd (encA tl ++ r) hhd]
            simp only [ih.2 tl r htl]

/-- The size bound is dominated by the encoding length. -/
theorem jsize_le_enc_aux (f : Nat) :
    (∀ v, jsize v ≤ f → jsize v ≤ (enc v).length) ∧
    (∀ a, asize a ≤ f → asize a ≤ (encA a).length + 1) := by
  induction f with
  | zero =>
      constructor
      · intro v h; have := jsize_pos v; omega
      · intro a h; have := asize_pos a; omega
  | succ f ih =>
      constructor
      · intro v h
        cases v with
        | jnull => simp [jsize, enc]
        | jbool b => simp [jsize, enc]
        | jnum n => simp [jsize, enc]
        | jstr s => simp [jsize, enc]
        | jarr a =>
            have ha : asize a ≤ f := by simp [jsize] at h; omega
            have := ih.2 a ha
            simp [jsize, enc]; omega
      · intro a h
        cases a with
        | anil => simp [asize, encA]
        | acons hd tl =>
            have hhd : jsize hd ≤ f := by
              have := asize_pos tl; simp [asize] at h; omega
            have htl : asize tl ≤ f := by
              have := jsize_pos hd; simp [asize] at h; omega
            have h1 := ih.1 hd hhd
            have h2 := ih.2 tl htl
            simp [asize, encA]; omega

theorem jsize_le_enc (v : Jval) : jsize v ≤ (enc v).length :=
  (jsize_le_enc_aux (jsize v)).1 v le_rfl

/-- Full decoding of a complete encoding with the fuel `Deserialize` uses. -/
theorem dec_enc (j : Jval) : dec ((enc j).length + 1) (enc j) = some (j, []) := by
  have h := (dec_enc_aux ((enc j).length + 1)).1 j []
    (by have := jsize_le_enc j; omega)
  simpa using h

/-- An encoding is never empty (it starts with a tag byte). -/
theorem enc_ne_nil (j : Jval) : enc j ≠ [] := by
  cases j <;> simp [enc]

/-! ## Configuration validation (config.go) -/

/-- Embedding of the `Config` struct (config.go:12-52).  Durations are `Int`
nanoseconds as in Go's `time.Duration`. -/
structure Config where
  address : String
  username : String
  password : String
  database : Int
  dialTimeout : Int
  readTimeout : Int
  writeTimeout : Int
  poolSize : Int
  minIdleConns : Int
  maxIdleTime : Int
  connMaxLifetime : Int
  defaultQueue : String
  messageTTL : Int
  maxRetries : Int
  retryDelay : Int
  breakerMaxRequests : Nat
  breakerInterval : Int
  breakerTimeout : Int
  rateLimitRequests : Int
  rateLimitBurst : Int
  tlsEnabled : Bool
  tlsSkipVerify : Bool
  tlsCertFile : String
  tlsKeyFile : String
  tlsCAFile : String
  logLevel : String

/-- Duration of `time.Millisecond` in nanoseconds. -/
def millisecond : Int := 1000000

/-- Duration of `time.Second` in nanoseconds. -/
def second : Int := 1000000000

/-- Embedding of `(*Config).validate` (config.go:93-150): the exact chain of
rejection checks, in source order. -/
def Config.validate (c : Config) : Except String Unit :=
  if c.address = "" then .error "address cannot be empty"
  else if c.database < 0 ∨ c.database > 15 then
    .error "database must be between 0 and 15"
  else if c.dialTimeout < millisecond then .error "dial timeout must be at least 1ms"
  else if c.readTimeout < millisecond then .error "read timeout must be at least 1ms"
  else if c.writeTimeout < millisecond then .error "write timeout must be at least 1ms"
  else if c.poolSize < 1 then .error "pool size must be at least 1"
  else if c.minIdleConns < 0 then .error "min idle connections cannot be negative"
  else if c.minIdleConns > c.poolSize then
    .error "min idle connections cannot exceed pool size"
  else if c.defaultQueue = "" then .error "default queue name cannot be empty"
  else if c.messageTTL < second then .error "message TTL must be at least 1 second"
  else if c.maxRetries < 0 then .error "max retries cannot be negative"
  else if c.retryDelay < millisecond then .error "retry delay must be at least 1ms"
  else if c.tlsEnabled ∧ (c.tlsCertFile = "" ∨ c.tlsKeyFile = "") then
    .error "TLS cert file and key file are required when TLS is enabled"
  else .ok ()

/-- The acceptance condition exactly as the spec's claim words it (§6):
address non-empty; database index within the store's valid range (0..15);
every timeout at least one time unit (1ms); pool size at least 1; min idle
not exceeding pool size; default queue non-empty; message TTL at least 1
second; TLS requires cert and key when enabled.  Stated from the spec, for
comparison against `Config.validate` from the source. -/
def specAccepts (c : Config) : Prop :=
  c.address ≠ "" ∧ (0 ≤ c.database ∧ c.database ≤ 15) ∧
  millisecond ≤ c.dialTimeout ∧ millisecond ≤ c.readTimeout ∧
  millisecond ≤ c.writeTimeout ∧ 1 ≤ c.poolSize ∧
  c.minIdleConns ≤ c.poolSize ∧ c.defaultQueue ≠ "" ∧
  second ≤ c.messageTTL ∧
  (c.tlsEnabled → (c.tlsCertFile ≠ "" ∧ c.tlsKeyFile ≠ ""))

instance (c : Config) : Decidable (specAccepts c) := by
  unfold specAccepts; infer_instance

theorem ite_error_eq_ok {cond : Prop} [Decidable cond] {msg : String}
    {rest : Except String Unit} :
    (if cond then Except.error msg else rest) = .ok () ↔ ¬cond ∧ rest = .ok () := by
  by_cases h : cond <;> simp [h]

/-- The default configuration `LoadConfig` builds when no environment
variable is set (config.go:55-83). -/
def defaultConfig : Config :=
  { address := "localhost:6379", username := "", password := "", database := 0
    dialTimeout := 5 * second, readTimeout := 3 * second, writeTimeout := 3 * second
    poolSize := 10, minIdleConns := 2, maxIdleTime := 300 * second
    connMaxLifetime := 3600 * second, defaultQueue := "user-registrations"
    messageTTL := 86400 * second, maxRetries := 3, retryDelay := second
    breakerMaxRequests := 5, breakerInterval := 120 * second
    breakerTimeout := 60 * second, rateLimitRequests := 1000
    rateLimitBurst := 2000, tlsEnabled := false, tlsSkipVerify := false
    tlsCertFile := "", tlsKeyFile := "", tlsCAFile := "", logLevel := "INFO" }

/-- A configuration meeting every condition the claim lists, with a negative
`MaxRetries` field (a field the claim's list does not mention). -/
def negRetryConfig : Config :=
  { defaultConfig with maxRetries := -1 }

/-! ## Health derivation (sender.go:462-487) -/

/-- Embedding of the status derivation in `Health`: the float64 arithmetic
`float64(errorCount) / float64(messagesSent+1)` is modelled over `ℚ` (the
involved values are small integers, exactly representable). -/
def errorRate (errorCount messagesSent : Int) : ℚ :=
  (errorCount : ℚ) / ((messagesSent : ℚ) + 1)

def healthStatus (errorCount messagesSent : Int) : String :=
  if errorRate errorCount messagesSent > 1/2 then "unhealthy"
  else if errorRate errorCount messagesSent > 1/10 then "degraded"
  else "healthy"

/-! ## Claim theorems: codec, configuration, health -/

/-- C6: the claim "deserializing the result of serializing `x` into a target
of `x`'s shape reproduces `x`" fails on the code at the empty string: it is
encodable (`Serialize` succeeds, producing empty data), yet `Deserialize`
rejects empty data. -/
theorem serialize_empty_string_no_roundtrip :
    Serialize (some (.str [])) = .ok [] ∧
    Deserialize [] (shapeOf (.str [])) = .error .emptyData :=
  ⟨rfl, rfl⟩

/-- C6 (amended): for every payload whose serialized form is non-empty —
all structured values and all non-empty textual or binary payloads —
deserializing the result of serializing it into a target of its shape
reproduces a value equal to it. -/
theorem serialize_roundTrip (x : GoValue) (d : List Int)
    (hser : Serialize (some x) = .ok d) (hne : d ≠ []) :
    Deserialize d (shapeOf x) = .ok x := by
  cases x with
  | str s =>
      simp only [Serialize, Except.ok.injEq] at hser
      subst hser
      simp [Deserialize, shapeOf, hne]
  | bytes b =>
      simp only [Serialize, Except.ok.injEq] at hser
      subst hser
      simp [Deserialize, shapeOf, hne]
  | structured j =>
      simp only [Serialize, Except.ok.injEq] at hser
      subst hser
      simp [Deserialize, shapeOf, enc_ne_nil j, dec_enc j]

/-- Witness for the amended C6 at a concrete structured payload. -/
theorem serialize_roundTrip_witness :
    Serialize (some (.structured (.jbool true))) = .ok [1, 1] ∧
    ([1, 1] : List Int) ≠ [] ∧
    Deserialize [1, 1] (shapeOf (.structured (.jbool true))) =
      .ok (.structured (.jbool true)) :=
  ⟨rfl, by decide, serialize_roundTrip (.structured (.jbool true)) [1, 1] rfl (by decide)⟩

/-- C7: the codec's `Serialize` fails exactly on a null/absent input; `Deserialize`
fails on empty input; on non-empty input a textual or binary target always
succeeds (receiving the bytes verbatim) and a structured target succeeds
exactly when the data decodes completely as a structured value. -/
theorem serializer_error_contract :
    (∀ m : Option GoValue, (∃ e, Serialize m = .error e) ↔ m = none) ∧
    (∀ t : TargetShape, Deserialize [] t = .error .emptyData) ∧
    (∀ d : List Int, d ≠ [] →
      Deserialize d .tstr = .ok (.str d) ∧
      Deserialize d .tbytes = .ok (.bytes d) ∧
      ((∃ g, Deserialize d .tstructured = .ok g) ↔
        ∃ j, dec (d.length + 1) d = some (j, []))) := by
  refine ⟨?_, ?_, ?_⟩
  · intro m
    cases m with
    | none => exact ⟨fun _ => rfl, fun _ => ⟨.nilMessage, rfl⟩⟩
    | some g => cases g <;> simp [Serialize]
  · intro t
    cases t <;> rfl
  · intro d hd
    refine ⟨by simp [Deserialize, hd], by simp [Deserialize, hd], ?_⟩
    simp only [Deserialize, List.isEmpty_eq_true, hd, if_false]
    cases h : dec (d.length + 1) d with
    | none => simp
    | some p =>
        obtain ⟨j, r⟩ := p
        cases r with
        | nil => simp
        | cons a as => simp

/-- Witness for C7 at concrete inputs. -/
theorem serializer_error_contract_witness :
    Deserialize [2, 5] .tstr = .ok (.str [2, 5]) :=
  (serializer_error_contract.2.2 [2, 5] (by decide)).1

/-- C9: the claim's "if and only if" fails on the code: this configuration
satisfies every condition the claim lists, yet `validate` rejects it because
of its negative `MaxRetries` — a check the claim's list omits. -/
theorem validate_rejects_spec_accepted_config :
    specAccepts negRetryConfig ∧
    negRetryConfig.validate = .error "max retries cannot be negative" :=
  ⟨by decide, rfl⟩

/-- C9 (amended): the function `validate` accepts a configuration if and only if the
conditions the claim lists hold and additionally min-idle connections are
non-negative, max retries is non-negative, and the retry delay is at least
one millisecond. -/
theorem validate_accepts_iff (c : Config) :
    c.validate = .ok () ↔
      (specAccepts c ∧ 0 ≤ c.minIdleConns ∧ 0 ≤ c.maxRetries ∧
        millisecond ≤ c.retryDelay) := by
  unfold Config.validate
  rw [ite_error_eq_ok, ite_error_eq_ok, ite_error_eq_ok, ite_error_eq_ok,
    ite_error_eq_ok, ite_error_eq_ok, ite_error_eq_ok, ite_error_eq_ok,
    ite_error_eq_ok, ite_error_eq_ok, ite_error_eq_ok, ite_error_eq_ok,
    ite_error_eq_ok]
  constructor
  · rintro ⟨n1, n2, n3, n4, n5, n6, n7, n8, n9, n10, n11, n12, n13, -⟩
    exact ⟨⟨n1, by omega, by omega, by omega, by omega, by omega, by omega, n9,
      by omega, fun hte => ⟨fun hc => n13 ⟨hte, Or.inl hc⟩,
        fun hk => n13 ⟨hte, Or.inr hk⟩⟩⟩, by omega, by omega, by omega⟩
  · rintro ⟨⟨g1, g2, g3, g4, g5, g6, g7, g8, g9, g10⟩, e1, e2, e3⟩
    refine ⟨g1, by omega, by omega, by omega, by omega, by omega, by omega,
      by omega, g8, by omega, by omega, by omega, ?_, rfl⟩
    rintro ⟨hte, hck⟩
    rcases hck with hc | hk
    · exact absurd hc (g10 hte).1
    · exact absurd hk (g10 hte).2

/-- Witness for the amended C9: the library's default configuration
(config.go:55-83) is accepted. -/
theorem validate_accepts_iff_witness :
    defaultConfig.validate = .ok () :=
  (validate_accepts_iff defaultConfig).mpr (by decide)

/-- C4: the function `Health` derives the status from
`errorRate = errorCount / (messagesSent + 1)`: "unhealthy" exactly when the
rate exceeds 1/2, "degraded" exactly when it exceeds 1/10 but not 1/2,
"healthy" otherwise; the denominator is never zero; and the four concrete
derivations listed in the spec hold. -/
theorem health_status_derivation (e m : Int) (hm : 0 ≤ m) :
    ((m : ℚ) + 1 ≠ 0) ∧
    (healthStatus e m = "unhealthy" ↔ (e : ℚ) / ((m : ℚ) + 1) > 1/2) ∧
    (healthStatus e m = "degraded" ↔
      ¬((e : ℚ) / ((m : ℚ) + 1) > 1/2) ∧ (e : ℚ) / ((m : ℚ) + 1) > 1/10) ∧
    (healthStatus e m = "healthy" ↔
      ¬((e : ℚ) / ((m : ℚ) + 1) > 1/2) ∧ ¬((e : ℚ) / ((m : ℚ) + 1) > 1/10)) ∧
    healthStatus 0 0 = "healthy" ∧ healthStatus 6 10 = "unhealthy" ∧
    healthStatus 2 10 = "degraded" ∧ healthStatus 0 10 = "healthy" := by
  have hq : (0 : ℚ) ≤ (m : ℚ) := by exact_mod_cast hm
  refine ⟨by intro h0; linarith, ?_, ?_, ?_, by norm_num [healthStatus, errorRate],
    by norm_num [healthStatus, errorRate], by norm_num [healthStatus, errorRate],
    by norm_num [healthStatus, errorRate]⟩ <;>
    · unfold healthStatus errorRate
      split_ifs <;> simp_all

/-- Witness for C4 at 6 errors / 10 sent. -/
theorem health_status_derivation_witness :
    healthStatus 6 10 = "unhealthy" :=
  (health_status_derivation 6 10 (by decide)).2.2.2.2.2.1

/-! ## Fault isolator (spec §4.2, configured in sender.go:93-108)

`Modelled from the spec:` the three-state breaker around the transport call
is the external `sony/gobreaker` package, whose source is not part of this
repository; §4.2 of the spec describes its state machine.  The model below
follows §4.2, instantiated with the settings `NewSender` passes
(`ReadyToTrip: counts.ConsecutiveFailures > 3`, `MaxRequests`, `Interval`,
`Timeout`).  It is generic in the client state `σ` threaded through the
wrapped operation, so "the transport operation is not invoked" is expressed
as: the returned client state equals the input state, for every operation. -/

/-- Breaker states. -/
inductive BState : Type where
  | closed : BState
  | opened : BState
  | halfOpen : BState
  deriving DecidableEq, Repr

/-- Rolling counters of the breaker window. -/
structure Counts where
  requests : Nat
  consecutiveSuccesses : Nat
  consecutiveFailures : Nat
  deriving DecidableEq, Repr

/-- Cleared counters. -/
def Counts.clear : Counts := ⟨0, 0, 0⟩

/-- A success clears consecutive failures (spec §4.2). -/
def Counts.onSuccess (c : Counts) : Counts :=
  ⟨c.requests, c.consecutiveSuccesses + 1, 0⟩

/-- A failure clears consecutive successes (spec §4.2). -/
def Counts.onFailure (c : Counts) : Counts :=
  ⟨c.requests, 0, c.consecutiveFailures + 1⟩

/-- Breaker settings: half-open trial quota, closed-state counter-reset
interval, open timeout, and the consecutive-failure trip threshold.  Times
are logical clock instants. -/
structure BreakerCfg where
  maxRequests : Nat
  interval : Nat
  timeout : Nat
  failureThreshold : Nat
  deriving DecidableEq, Repr

/-- The breaker settings `NewSender` installs (sender.go:93-108): the trip
policy is `counts.ConsecutiveFailures > 3`. -/
def Config.breakerCfg (c : Config) : BreakerCfg :=
  ⟨c.breakerMaxRequests, c.breakerInterval.toNat, c.breakerTimeout.toNat, 3⟩

/-- Breaker state: current state, counters, and the expiry instant (end of
the open timeout, or of the closed-state counter generation; `0` means no
expiry). -/
structure Breaker where
  state : BState
  counts : Counts
  expiry : Nat
  deriving DecidableEq, Repr

/-- A fresh closed breaker created at instant `now`. -/
def newBreaker (cfg : BreakerCfg) (now : Nat) : Breaker :=
  ⟨.closed, .clear, if cfg.interval = 0 then 0 else now + cfg.interval⟩

/-- Expiry-driven transitions evaluated on entry to every call: an elapsed
closed-state generation clears the counters; an elapsed open timeout moves
to half-open (spec §4.2: "after the timeout elapses, transition to
half-open"). -/
def refresh (cfg : BreakerCfg) (br : Breaker) (now : Nat) : Breaker :=
  match br.state with
  | .closed =>
      if br.expiry ≠ 0 ∧ br.expiry ≤ now then
        ⟨.closed, .clear, if cfg.interval = 0 then 0 else now + cfg.interval⟩
      else br
  | .opened =>
      if br.expiry ≤ now then ⟨.halfOpen, .clear, 0⟩ else br
  | .halfOpen => br

/-- Counter/state bookkeeping after the wrapped operation returns:
on failure, trip to open once consecutive failures exceed the threshold
(closed) or immediately (half-open); on success in half-open, close once
the trial quota of consecutive successes is reached. -/
def afterRequest (cfg : BreakerCfg) (br : Breaker) (now : Nat) (failed : Bool) : Breaker :=
  if failed then
    match br.state with
    | .closed =>
        let c := br.counts.onFailure
        if cfg.failureThreshold < c.consecutiveFailures then
          ⟨.opened, .clear, now + cfg.timeout⟩
        else { br with counts := c }
    | .halfOpen => ⟨.opened, .clear, now + cfg.timeout⟩
    | .opened => br
  else
    match br.state with
    | .closed => { br with counts := br.counts.onSuccess }
    | .halfOpen =>
        let c := br.counts.onSuccess
        if cfg.maxRequests ≤ c.consecutiveSuccesses then
          ⟨.closed, .clear, if cfg.interval = 0 then 0 else now + cfg.interval⟩
        else { br with counts := c }
    | .opened => br

/-- Whether an operation result counts as a failure. -/
def isFailure {E : Type} : Except E Unit → Bool
  | .ok _ => false
  | .error _ => true

/-- Modelled from the spec: `execute(operation)` of §4.2 (the `gobreaker`
package is not part of this repository): open rejects with the isolator's own
`CircuitOpen` error without running the operation; half-open beyond the
trial quota rejects with `TooManyRequests`; otherwise the operation runs on
the client state `σ` and its own error passes through. -/
def Breaker.execute {σ E : Type} (cfg : BreakerCfg) (br : Breaker) (now : Nat)
    (openErr tooMany : E) (op : σ → Except E Unit × σ) (s : σ) :
    Except E Unit × Breaker × σ :=
  let br1 := refresh cfg br now
  match br1.state with
  | .opened => (.error openErr, br1, s)
  | .halfOpen =>
      if cfg.maxRequests ≤ br1.counts.requests then (.error tooMany, br1, s)
      else
        let br2 : Breaker :=
          { br1 with counts := { br1.counts with requests := br1.counts.requests + 1 } }
        let r := op s
        (r.1, afterRequest cfg br2 now (isFailure r.1), r.2)
  | .closed =>
      let br2 : Breaker :=
        { br1 with counts := { br1.counts with requests := br1.counts.requests + 1 } }
      let r := op s
      (r.1, afterRequest cfg br2 now (isFailure r.1), r.2)

/-- The breaker state after one failed transport call at instant `t`. -/
def failStep {E : Type} (cfg : BreakerCfg) (t : Nat) (e : E) (br : Breaker) : Breaker :=
  (Breaker.execute cfg br t e e (fun (s : Unit) => (.error e, s)) ()).2.1

/-- Invariant of repeated failures below the trip threshold: the breaker
stays closed, counting them. -/
theorem failStep_iterate {E : Type} (cfg : BreakerCfg) (t : Nat) (e : E)
    (exp0 : Nat) (hexp : exp0 = 0 ∨ t < exp0) (k : Nat)
    (hk : k ≤ cfg.failureThreshold) :
    (failStep cfg t e)^[k] ⟨.closed, ⟨0, 0, 0⟩, exp0⟩ = ⟨.closed, ⟨k, 0, k⟩, exp0⟩ := by
  induction k with
  | zero => simp
  | succ k ih =>
      rw [Function.iterate_succ_apply', ih (by omega)]
      unfold failStep Breaker.execute refresh afterRequest isFailure Counts.onFailure
      have hc : ¬(exp0 ≠ 0 ∧ exp0 ≤ t) := by
        rintro ⟨hne, hle⟩
        rcases hexp with h | h
        · exact hne h
        · omega
      simp [hc, if_neg (by omega : ¬cfg.failureThreshold < k + 1)]

/-- C1: for the configured consecutive-failure threshold T, T+1 consecutive
transport failures move a fresh closed fault isolator to open, with expiry
one open-timeout after the tripping call; while open and before the expiry,
every call fails with the isolator's own CircuitOpen error and the transport
operation is not invoked (the client state comes back unchanged, whatever
the operation); once the open-timeout has elapsed the next call is let
through to the transport operation again. -/
theorem breaker_opens_after_failures {σ E : Type} (cfg : BreakerCfg)
    (t exp0 : Nat) (e : E) (hexp : exp0 = 0 ∨ t < exp0) :
    ((failStep cfg t e)^[cfg.failureThreshold + 1] ⟨.closed, ⟨0, 0, 0⟩, exp0⟩ =
      ⟨.opened, .clear, t + cfg.timeout⟩) ∧
    (∀ (br : Breaker) (now : Nat) (openErr tooMany : E)
      (op : σ → Except E Unit × σ) (s : σ),
      br.state = .opened → now < br.expiry →
      Breaker.execute cfg br now openErr tooMany op s = (.error openErr, br, s)) ∧
    (∀ (br : Breaker) (now : Nat) (openErr tooMany : E)
      (op : σ → Except E Unit × σ) (s : σ),
      br.state = .opened → br.expiry ≤ now → 1 ≤ cfg.maxRequests →
      (Breaker.execute cfg br now openErr tooMany op s).1 = (op s).1 ∧
      (Breaker.execute cfg br now openErr tooMany op s).2.2 = (op s).2) := by
  refine ⟨?_, ?_, ?_⟩
  · rw [Function.iterate_succ_apply',
      failStep_iterate cfg t e exp0 hexp cfg.failureThreshold le_rfl]
    unfold failStep Breaker.execute refresh afterRequest isFailure Counts.onFailure
    have hc : ¬(exp0 ≠ 0 ∧ exp0 ≤ t) := by
      rintro ⟨hne, hle⟩
      rcases hexp with h | h
      · exact hne h
      · omega
    simp [hc, Counts.clear]
  · rintro ⟨st, cnts, exp⟩ now openErr tooMany op s hst hlt
    cases hst
    unfold Breaker.execute refresh
    simp only at hlt
    simp [if_neg (by omega : ¬exp ≤ now)]
  · rintro ⟨st, cnts, exp⟩ now openErr tooMany op s hst hle hmax
    cases hst
    unfold Breaker.execute refresh
    simp only at hle
    simp [if_pos hle, if_neg (by simp [Counts.clear]; omega : ¬cfg.maxRequests ≤ Counts.clear.requests)]

/-- Witness for C1: the library's settings (threshold 3, i.e. trip after 4
consecutive failures), a concrete open breaker before and after its expiry. -/
theorem breaker_opens_after_failures_witness :
    ((failStep (Config.breakerCfg defaultConfig) 1 (0 : Nat))^[4]
        ⟨.closed, ⟨0, 0, 0⟩, 0⟩ =
      ⟨.opened, .clear, 1 + (Config.breakerCfg defaultConfig).timeout⟩) ∧
    (Breaker.execute (Config.breakerCfg defaultConfig) ⟨.opened, .clear, 10⟩ 5
        (7 : Nat) 8 (fun (b : Bool) => (.ok (), !b)) false =
      (.error 7, ⟨.opened, .clear, 10⟩, false)) ∧
    ((Breaker.execute (Config.breakerCfg defaultConfig) ⟨.opened, .clear, 10⟩ 10
        (7 : Nat) 8 (fun (b : Bool) => (.ok (), !b)) false).1 = .ok () ∧
      (Breaker.execute (Config.breakerCfg defaultConfig) ⟨.opened, .clear, 10⟩ 10
        (7 : Nat) 8 (fun (b : Bool) => (.ok (), !b)) false).2.2 = true) := by
  have h := breaker_opens_after_failures (σ := Bool) (E := Nat)
    (Config.breakerCfg defaultConfig) 1 0 0 (Or.inl rfl)
  exact ⟨h.1, h.2.1 ⟨.opened, .clear, 10⟩ 5 7 8 _ false rfl (by decide),
    (h.2.2 ⟨.opened, .clear, 10⟩ 10 7 8 _ false rfl (by decide) (by decide)).1,
    (h.2.2 ⟨.opened, .clear, 10⟩ 10 7 8 _ false rfl (by decide) (by decide)).2⟩

/-! ## Dispatch engine (sender.go send paths)

The send paths are embedded as pure functions over an explicit `World`
state.  External outcomes are oracle booleans: `rateOk` (whether
`rateLimiter.Wait` returns without the context being cancelled) and
`transportOk` (whether `pipe.Exec` succeeds).  Every observable interaction
(rate-limiter wait, pipelined transport call, callback invocation) is
recorded in an event trace. -/

/-- The error taxonomy of a send/batch call. -/
inductive SendError : Type where
  | rateLimited : SendError
  | circuitOpen : SendError
  | tooManyRequests : SendError
  | emptyBatch : SendError
  | serialization : SerErr → SendError
  | serializationAt : Nat → SerErr → SendError
  | transport : String → SendError
  deriving DecidableEq, Repr

/-- Embedding of `MessageEnvelope` (types.go:136-145) as built by the send
paths: fresh id, queue name, serialized payload, creation timestamp, TTL and
retry counter.  `Headers` is always created empty and `Metadata` never set
(sender.go:262-268, 372-378), so both are elided. -/
structure Envelope where
  id : Nat
  queue : String
  payload : List Int
  timestamp : Nat
  ttl : Int
  retries : Nat
  deriving DecidableEq, Repr

/-- Observable interactions of one call, in order. -/
inductive Event : Type where
  | rateWait : Event
  | transportExec : String → List Envelope → Int → Bool → Event
  | errorCb : SendError → Event
  | successCb : String → Nat → Nat → Nat → Int → Event
  deriving DecidableEq, Repr

/-- The sender's mutable state plus the external list store and the trace. -/
structure World where
  uuidCtr : Nat
  clock : Nat
  messagesSent : Int
  errorCount : Int
  lastError : Option SendError
  lastSuccess : Nat
  isConnected : Bool
  breaker : Breaker
  store : List (String × List Envelope)
  events : List Event
  deriving DecidableEq, Repr

/-- Model of `time.Now()`: read the clock and advance it (a strictly monotone
nanosecond clock). -/
def World.now (w : World) : Nat × World :=
  (w.clock, { w with clock := w.clock + 1 })

/-- Model of `uuid.New()`: a fresh identifier. -/
def World.newUuid (w : World) : Nat × World :=
  (w.uuidCtr, { w with uuidCtr := w.uuidCtr + 1 })

/-- Record an observable event. -/
def World.log (w : World) (ev : Event) : World :=
  { w with events := w.events ++ [ev] }

/-- The optional handlers and queue-naming strategy of `SenderOptions`
(types.go:101-126); handlers are modelled by whether they are installed,
their invocations being recorded in the trace. -/
structure Opts where
  hasErrorHandler : Bool
  hasSuccessHandler : Bool
  queueNamer : Option (String → String)

/-- Embedding of `getQueueKey` (sender.go:489-495). -/
def getQueueKey (o : Opts) (queue : String) : String :=
  match o.queueNamer with
  | some f => f queue
  | none => "queue:" ++ queue

/-- Value of a key in the list store, if present. -/
def storeLookup : List (String × List Envelope) → String → Option (List Envelope)
  | [], _ => none
  | (k, v) :: rest, key => if k = key then some v else storeLookup rest key

/-- Replace (or create) a key's value. -/
def storeSet : List (String × List Envelope) → String → List Envelope →
    List (String × List Envelope)
  | [], key, v => [(key, v)]
  | (k, v0) :: rest, key, v =>
      if k = key then (key, v) :: rest else (k, v0) :: storeSet rest key v

/-- Semantics of `LPUSH key e₁ … eₙ`: each value is pushed to the head in turn, so the
new head-first list is the reversed batch followed by the old content. -/
def storePush (st : List (String × List Envelope)) (key : String)
    (envs : List Envelope) : List (String × List Envelope) :=
  storeSet st key (envs.reverse ++ (storeLookup st key).getD [])

/-- The envelope-building loop of `sendBatchInternal` (sender.go:368-394):
per message a fresh id, its own `time.Now()` timestamp, the configured
default TTL, then payload serialization (the subsequent JSON-marshal of the
envelope struct cannot fail and is kept as the envelope value itself). -/
def buildEnvelopes (c : Config) (queue : String) :
    List (Option GoValue) → Nat → World → Except SendError (List Envelope) × World
  | [], _, w => (.ok [], w)
  | msg :: rest, i, w =>
      let p1 := w.newUuid
      let p2 := p1.2.now
      match Serialize msg with
      | .error e => (.error (.serializationAt i e), p2.2)
      | .ok payload =>
          let env : Envelope := ⟨p1.1, queue, payload, p2.1, c.messageTTL, 0⟩
          let r := buildEnvelopes c queue rest (i + 1) p2.2
          match r.1 with
          | .ok envs => (.ok (env :: envs), r.2)
          | .error e => (.error e, r.2)

/-- Embedding of `sendBatchInternal` (sender.go:365-420): build all
envelopes, then one pipelined `LPUSH`-all plus `EXPIRE` to the configured
default TTL; on transport failure the connection flag is cleared and nothing
becomes visible, on success the flag is set. -/
def sendBatchInternal (c : Config) (o : Opts) (transportOk : Bool) (queue : String)
    (msgs : List (Option GoValue)) (w : World) : Except SendError Unit × World :=
  let listKey := getQueueKey o queue
  let r := buildEnvelopes c queue msgs 0 w
  match r.1 with
  | .error e => (.error e, r.2)
  | .ok envs =>
      let w1 := r.2.log (.transportExec listKey envs c.messageTTL transportOk)
      if transportOk then
        (.ok (), { w1 with store := storePush w1.store listKey envs, isConnected := true })
      else
        (.error (.transport queue), { w1 with isConnected := false })

/-- Embedding of `sendMessageInternal` (sender.go:260-311): one envelope
with a fresh id and its own timestamp, the caller's TTL, then a pipelined
`LPUSH` plus `EXPIRE ttl`. -/
def sendMessageInternal (_c : Config) (o : Opts) (transportOk : Bool) (queue : String)
    (msg : Option GoValue) (ttl : Int) (w : World) : Except SendError Unit × World :=
  let p1 := w.newUuid
  let p2 := p1.2.now
  match Serialize msg with
  | .error e => (.error (.serialization e), p2.2)
  | .ok payload =>
      let env : Envelope := ⟨p1.1, queue, payload, p2.1, ttl, 0⟩
      let listKey := getQueueKey o queue
      let w1 := p2.2.log (.transportExec listKey [env] ttl transportOk)
      if transportOk then
        (.ok (), { w1 with store := storePush w1.store listKey [env], isConnected := true })
      else
        (.error (.transport queue), { w1 with isConnected := false })

/-- The success-callback loop of `SendBatch` (sender.go:348-359): one
callback per message, each with a fresh UUID as `MessageID`, the shared call
start time and the configured default TTL. -/
def logSuccessCbs (queue : String) (startTime : Nat) (ttl : Int) :
    Nat → Nat → World → World
  | _, 0, w => w
  | i, k + 1, w =>
      let p := w.newUuid
      logSuccessCbs queue startTime ttl (i + 1) k
        (p.2.log (.successCb queue i p.1 startTime ttl))

/-- The failure block shared by `SendMessageWithTTL` (sender.go:230-239) and
`SendBatch` (sender.go:332-341): bump the error counter, set the last-error
text, invoke the optional error handler. -/
def recordFailure (o : Opts) (e : SendError) (w : World) : World :=
  let w1 := { w with errorCount := w.errorCount + 1, lastError := some e }
  if o.hasErrorHandler then w1.log (.errorCb e) else w1

/-- The success block of `SendMessageWithTTL` (sender.go:242-254): bump the
sent counter, stamp the last success, invoke the optional success handler
with a freshly generated `MessageID`. -/
def recordSuccessSingle (o : Opts) (queue : String) (startTime : Nat) (ttl : Int)
    (w : World) : World :=
  let w1 := { w with messagesSent := w.messagesSent + 1 }
  let pLs := w1.now
  let w2 := { pLs.2 with lastSuccess := pLs.1 }
  if o.hasSuccessHandler then
    let pm := w2.newUuid
    pm.2.log (.successCb queue 0 pm.1 startTime ttl)
  else w2

/-- The success block of `SendBatch` (sender.go:343-359): bump the sent
counter by the batch size, stamp the last success, invoke the optional
success handler once per message. -/
def recordSuccessBatch (o : Opts) (queue : String) (startTime : Nat) (ttl : Int)
    (n : Nat) (w : World) : World :=
  let w1 := { w with messagesSent := w.messagesSent + n }
  let pLs := w1.now
  let w2 := { pLs.2 with lastSuccess := pLs.1 }
  if o.hasSuccessHandler then logSuccessCbs queue startTime ttl 0 n w2 else w2

/-- The breaker-wrapped transport execution shared by both send paths
(sender.go:226-228 / 328-330): the operation runs under the fault isolator,
at the current instant, with the isolator's two rejection errors. -/
def sendCore (c : Config) (op : World → Except SendError Unit × World)
    (w1 : World) : Except SendError Unit × Breaker × World :=
  Breaker.execute c.breakerCfg w1.breaker w1.clock .circuitOpen .tooManyRequests op w1

/-- Outcome handling of `SendMessageWithTTL` (sender.go:230-257): store the
updated breaker, then run the failure or success block. -/
def finishSingle (o : Opts) (queue : String) (startTime : Nat) (ttl : Int)
    (px : Except SendError Unit × Breaker × World) : Except SendError Unit × World :=
  let w2 := { px.2.2 with breaker := px.2.1 }
  match px.1 with
  | .error e => (.error e, recordFailure o e w2)
  | .ok _ => (.ok (), recordSuccessSingle o queue startTime ttl w2)

/-- Outcome handling of `SendBatch` (sender.go:332-362). -/
def finishBatch (o : Opts) (queue : String) (startTime : Nat) (ttl : Int)
    (n : Nat) (px : Except SendError Unit × Breaker × World) :
    Except SendError Unit × World :=
  let w2 := { px.2.2 with breaker := px.2.1 }
  match px.1 with
  | .error e => (.error e, recordFailure o e w2)
  | .ok _ => (.ok (), recordSuccessBatch o queue startTime ttl n w2)

/-- Embedding of `SendMessageWithTTL` (sender.go:217-257): note start time,
wait on the admission gate, run the transport closure under the fault
isolator, then update counters and fire the matching optional callback. -/
def SendMessageWithTTL (c : Config) (o : Opts) (rateOk transportOk : Bool)
    (queue : String) (msg : Option GoValue) (ttl : Int) (w : World) :
    Except SendError Unit × World :=
  let pStart := w.now
  let w1 := pStart.2.log .rateWait
  if ¬rateOk then (.error .rateLimited, w1)
  else
    finishSingle o queue pStart.1 ttl
      (sendCore c (sendMessageInternal c o transportOk queue msg ttl) w1)

/-- Embedding of `SendMessage` (sender.go:212-214): the default TTL. -/
def SendMessage (c : Config) (o : Opts) (rateOk transportOk : Bool)
    (queue : String) (msg : Option GoValue) (w : World) :
    Except SendError Unit × World :=
  SendMessageWithTTL c o rateOk transportOk queue msg c.messageTTL w

/-- Embedding of `SendBatch` (sender.go:315-362): an empty batch is rejected
up front, before the admission gate, the isolator and the transport; then
the same pipeline as the single send, with one success callback per message
afterwards. -/
def SendBatch (c : Config) (o : Opts) (rateOk transportOk : Bool)
    (queue : String) (msgs : List (Option GoValue)) (w : World) :
    Except SendError Unit × World :=
  if msgs.length = 0 then (.error .emptyBatch, w)
  else
    let pStart := w.now
    let w1 := pStart.2.log .rateWait
    if ¬rateOk then (.error .rateLimited, w1)
    else
      finishBatch o queue pStart.1 c.messageTTL msgs.length
        (sendCore c (sendBatchInternal c o transportOk queue msgs) w1)

/-- Embedding of `GetQueueSize` (sender.go:423-435): a read of the current
list length; a missing key yields length 0 rather than an error. -/
def GetQueueSize (o : Opts) (transportOk : Bool) (queue : String) (w : World) :
    Except SendError Int :=
  if transportOk then
    .ok (((storeLookup w.store (getQueueKey o queue)).getD []).length : Int)
  else
    .error (.transport queue)

/-- A freshly constructed sender: counters zeroed, connected after the
constructor's ping, breaker fresh, empty store and trace; the clock starts
at an arbitrary instant (100). -/
def initialWorld : World :=
  ⟨0, 100, 0, 0, none, 0, true, newBreaker (Config.breakerCfg defaultConfig) 100, [], []⟩

/-! ## Claim theorems: dispatch engine -/

/-- C2: calling `SendBatch` on an empty batch returns the empty-batch error with the
world unchanged — no rate-limiter wait, no breaker execution, no transport
call, no store change (nothing is appended to the trace and no state field
moves). -/
theorem sendBatch_empty_rejected (c : Config) (o : Opts) (rateOk transportOk : Bool)
    (queue : String) (w : World) :
    SendBatch c o rateOk transportOk queue [] w = (.error .emptyBatch, w) :=
  rfl

/-- C8: reading the size of a queue whose resolved key was never written
yields 0 and no error. -/
theorem getQueueSize_missing_key (o : Opts) (queue : String) (w : World)
    (h : storeLookup w.store (getQueueKey o queue) = none) :
    GetQueueSize o true queue w = .ok 0 := by
  simp [GetQueueSize, h]

/-- Witness for C8 on the fresh sender's empty store. -/
theorem getQueueSize_missing_key_witness :
    GetQueueSize ⟨false, false, none⟩ true "nope" initialWorld = .ok 0 :=
  getQueueSize_missing_key ⟨false, false, none⟩ "nope" initialWorld rfl

/-- C3 counterexample: a failed `SendBatch` call (empty batch) that leaves
the error counter, the last-error text and the trace untouched — the error
callback is installed but never invoked, refuting "exactly once per failed
call" for the empty-batch rejection (the rate-limited path behaves the same
way). -/
theorem empty_batch_skips_error_accounting :
    (SendBatch defaultConfig ⟨true, true, none⟩ true true "q" [] initialWorld).1 =
      .error .emptyBatch ∧
    (SendBatch defaultConfig ⟨true, true, none⟩ true true "q" [] initialWorld).2.errorCount =
      initialWorld.errorCount ∧
    (SendBatch defaultConfig ⟨true, true, none⟩ true true "q" [] initialWorld).2.lastError =
      initialWorld.lastError ∧
    (SendBatch defaultConfig ⟨true, true, none⟩ true true "q" [] initialWorld).2.events = [] :=
  ⟨rfl, rfl, rfl, rfl⟩

/-- C5 counterexample: a two-message `SendBatch` whose transport call
carries envelopes with two different created-at timestamps (101 and 102) —
each envelope samples `time.Now()` itself (sender.go:374), so there is no
single shared submission timestamp. -/
theorem batch_timestamps_not_shared :
    (SendBatch defaultConfig ⟨false, false, none⟩ true true "q"
        [some (.str [7]), some (.str [8])] initialWorld).2.events =
      [.rateWait,
        .transportExec "queue:q"
          [⟨0, "q", [7], 101, defaultConfig.messageTTL, 0⟩,
           ⟨1, "q", [8], 102, defaultConfig.messageTTL, 0⟩]
          defaultConfig.messageTTL true] ∧
    (101 : Nat) ≠ 102 :=
  ⟨rfl, by decide⟩

/-! ### Accounting lemmas -/

/-- Number of error-callback invocations recorded in a trace. -/
def countErrorCb (l : List Event) : Nat :=
  l.countP fun ev => match ev with | .errorCb _ => true | _ => false

theorem countErrorCb_append (a b : List Event) :
    countErrorCb (a ++ b) = countErrorCb a + countErrorCb b := by
  simp [countErrorCb, List.countP_append]

theorem countErrorCb_rateWait : countErrorCb [.rateWait] = 0 := rfl

theorem countErrorCb_transportExec (key : String) (envs : List Envelope)
    (ttl : Int) (ok : Bool) : countErrorCb [.transportExec key envs ttl ok] = 0 := rfl

theorem countErrorCb_errorCb (e : SendError) : countErrorCb [.errorCb e] = 1 := rfl

/-- The breaker either rejects without running the operation (client state
unchanged) or runs it (client state is the operation's). -/
theorem executeState {σ E : Type} (cfg : BreakerCfg) (br : Breaker) (now : Nat)
    (openErr tooMany : E) (op : σ → Except E Unit × σ) (s : σ) :
    (Breaker.execute cfg br now openErr tooMany op s).2.2 = s ∨
    (Breaker.execute cfg br now openErr tooMany op s).2.2 = (op s).2 := by
  unfold Breaker.execute
  cases h : (refresh cfg br now).state
  · right; simp [h]
  · left; simp [h]
  · by_cases hq : cfg.maxRequests ≤ (refresh cfg br now).counts.requests
    · left; simp [h, hq]
    · right; simp [h, hq]

/-- A closed breaker whose generation has not expired passes the operation
and its result through. -/
theorem execute_closed {σ E : Type} (cfg : BreakerCfg) (br : Breaker) (now : Nat)
    (openErr tooMany : E) (op : σ → Except E Unit × σ) (s : σ)
    (hst : br.state = .closed) (hexp : br.expiry = 0 ∨ now < br.expiry) :
    (Breaker.execute cfg br now openErr tooMany op s).1 = (op s).1 ∧
    (Breaker.execute cfg br now openErr tooMany op s).2.2 = (op s).2 := by
  obtain ⟨st, cnts, exp⟩ := br
  cases hst
  unfold Breaker.execute refresh
  have hc : ¬(exp ≠ 0 ∧ exp ≤ now) := by
    rintro ⟨hne, hle⟩
    rcases hexp with h | h
    · exact hne h
    · simp only at h; omega
  simp [hc]

/-- The envelope-building loop only consumes identifiers and clock ticks:
all other state is untouched. -/
theorem buildEnvelopes_fields (c : Config) (queue : String)
    (msgs : List (Option GoValue)) : ∀ (i : Nat) (w : World),
    (buildEnvelopes c queue msgs i w).2.errorCount = w.errorCount ∧
    (buildEnvelopes c queue msgs i w).2.lastError = w.lastError ∧
    (buildEnvelopes c queue msgs i w).2.events = w.events := by
  induction msgs with
  | nil => intro i w; exact ⟨rfl, rfl, rfl⟩
  | cons msg rest ih =>
      intro i w
      unfold buildEnvelopes
      cases hs : Serialize msg with
      | error e => exact ⟨rfl, rfl, rfl⟩
      | ok payload =>
          have h := ih (i + 1) ((w.newUuid).2.now).2
          cases hr : (buildEnvelopes c queue rest (i + 1) ((w.newUuid).2.now).2).1 <;>
            · simp only [hr]
              exact h

/-- The operation `sendMessageInternal` never touches the error counter, the last-error
text, or the error-callback count. -/
theorem sendMessageInternal_fields (c : Config) (o : Opts) (tOk : Bool)
    (queue : String) (msg : Option GoValue) (ttl : Int) (w : World) :
    (sendMessageInternal c o tOk queue msg ttl w).2.errorCount = w.errorCount ∧
    (sendMessageInternal c o tOk queue msg ttl w).2.lastError = w.lastError ∧
    countErrorCb (sendMessageInternal c o tOk queue msg ttl w).2.events =
      countErrorCb w.events := by
  unfold sendMessageInternal
  cases hs : Serialize msg with
  | error e => exact ⟨rfl, rfl, rfl⟩
  | ok payload =>
      cases tOk <;>
        · refine ⟨rfl, rfl, ?_⟩
          simp [World.log, World.now, World.newUuid, countErrorCb,
            List.countP_append, List.countP_cons, List.countP_nil]

/-- The operation `sendBatchInternal` never touches the error counter, the last-error
text, or the error-callback count. -/
theorem sendBatchInternal_fields (c : Config) (o : Opts) (tOk : Bool)
    (queue : String) (msgs : List (Option GoValue)) (w : World) :
    (sendBatchInternal c o tOk queue msgs w).2.errorCount = w.errorCount ∧
    (sendBatchInternal c o tOk queue msgs w).2.lastError = w.lastError ∧
    countErrorCb (sendBatchInternal c o tOk queue msgs w).2.events =
      countErrorCb w.events := by
  unfold sendBatchInternal
  have h := buildEnvelopes_fields c queue msgs 0 w
  cases hr : (buildEnvelopes c queue msgs 0 w).1 with
  | error e =>
      simp only [hr]
      exact ⟨h.1, h.2.1, by rw [h.2.2]⟩
  | ok envs =>
      cases tOk <;>
        · simp only [hr]
          refine ⟨h.1, h.2.1, ?_⟩
          simp [World.log, countErrorCb, List.countP_append, List.countP_cons,
            List.countP_nil, h.2.2]

/-- The failure block records the failure exactly once. -/
theorem recordFailure_fields (o : Opts) (e : SendError) (w : World) :
    (recordFailure o e w).errorCount = w.errorCount + 1 ∧
    (recordFailure o e w).lastError = some e ∧
    countErrorCb (recordFailure o e w).events =
      countErrorCb w.events + (if o.hasErrorHandler then 1 else 0) := by
  unfold recordFailure World.log
  split_ifs with h <;> simp [countErrorCb_append, countErrorCb_errorCb]

theorem finishSingle_error (o : Opts) (queue : String) (st : Nat) (ttl : Int)
    (px : Except SendError Unit × Breaker × World) (e : SendError)
    (h : px.1 = .error e) :
    finishSingle o queue st ttl px =
      (.error e, recordFailure o e { px.2.2 with breaker := px.2.1 }) := by
  obtain ⟨res, brr, ws⟩ := px
  cases res <;> simp_all [finishSingle]

theorem finishSingle_inv (o : Opts) (queue : String) (st : Nat) (ttl : Int)
    (px : Except SendError Unit × Breaker × World) (e : SendError)
    (h : (finishSingle o queue st ttl px).1 = .error e) : px.1 = .error e := by
  obtain ⟨res, brr, ws⟩ := px
  cases res <;> simp_all [finishSingle]

theorem finishSingle_ok (o : Opts) (queue : String) (st : Nat) (ttl : Int)
    (px : Except SendError Unit × Breaker × World)
    (h : px.1 = .ok ()) :
    finishSingle o queue st ttl px =
      (.ok (), recordSuccessSingle o queue st ttl { px.2.2 with breaker := px.2.1 }) := by
  obtain ⟨res, brr, ws⟩ := px
  cases res <;> simp_all [finishSingle]

theorem finishBatch_error (o : Opts) (queue : String) (st : Nat) (ttl : Int)
    (n : Nat) (px : Except SendError Unit × Breaker × World) (e : SendError)
    (h : px.1 = .error e) :
    finishBatch o queue st ttl n px =
      (.error e, recordFailure o e { px.2.2 with breaker := px.2.1 }) := by
  obtain ⟨res, brr, ws⟩ := px
  cases res <;> simp_all [finishBatch]

theorem finishBatch_inv (o : Opts) (queue : String) (st : Nat) (ttl : Int)
    (n : Nat) (px : Except SendError Unit × Breaker × World) (e : SendError)
    (h : (finishBatch o queue st ttl n px).1 = .error e) : px.1 = .error e := by
  obtain ⟨res, brr, ws⟩ := px
  cases res <;> simp_all [finishBatch]

theorem finishBatch_ok (o : Opts) (queue : String) (st : Nat) (ttl : Int)
    (n : Nat) (px : Except SendError Unit × Breaker × World)
    (h : px.1 = .ok ()) :
    finishBatch o queue st ttl n px =
      (.ok (), recordSuccessBatch o queue st ttl n { px.2.2 with breaker := px.2.1 }) := by
  obtain ⟨res, brr, ws⟩ := px
  cases res <;> simp_all [finishBatch]

theorem sendCore_state (c : Config) (op : World → Except SendError Unit × World)
    (w1 : World) :
    (sendCore c op w1).2.2 = w1 ∨ (sendCore c op w1).2.2 = (op w1).2 := by
  unfold sendCore
  exact executeState c.breakerCfg w1.breaker w1.clock SendError.circuitOpen
    SendError.tooManyRequests op w1

theorem countErrorCb_gate (w : World) :
    countErrorCb (((w.now).2.log .rateWait).events) = countErrorCb w.events := by
  show countErrorCb (w.events ++ [Event.rateWait]) = countErrorCb w.events
  rw [countErrorCb_append]
  rfl

/-- C3 (amended): a failure produced inside the breaker execution — the
isolator's own rejection, a codec failure, or a transport failure —
increments the error counter exactly once, sets the last-error text to that
error, and invokes the installed error callback exactly once; but the
admission-gate failure (rate wait cancelled) and the empty-batch rejection
return without touching the counter, the last-error text, or the callback. -/
theorem failure_accounting (c : Config) (o : Opts) (transportOk : Bool)
    (queue : String) (msg : Option GoValue) (msgs : List (Option GoValue))
    (ttl : Int) (w : World) :
    ((SendMessageWithTTL c o false transportOk queue msg ttl w).1 = .error .rateLimited ∧
      (SendMessageWithTTL c o false transportOk queue msg ttl w).2.errorCount = w.errorCount ∧
      (SendMessageWithTTL c o false transportOk queue msg ttl w).2.lastError = w.lastError ∧
      countErrorCb (SendMessageWithTTL c o false transportOk queue msg ttl w).2.events =
        countErrorCb w.events) ∧
    (∀ e, (SendMessageWithTTL c o true transportOk queue msg ttl w).1 = .error e →
      (SendMessageWithTTL c o true transportOk queue msg ttl w).2.errorCount =
        w.errorCount + 1 ∧
      (SendMessageWithTTL c o true transportOk queue msg ttl w).2.lastError = some e ∧
      countErrorCb (SendMessageWithTTL c o true transportOk queue msg ttl w).2.events =
        countErrorCb w.events + (if o.hasErrorHandler then 1 else 0)) ∧
    (msgs ≠ [] →
      ((SendBatch c o false transportOk queue msgs w).1 = .error .rateLimited ∧
        (SendBatch c o false transportOk queue msgs w).2.errorCount = w.errorCount ∧
        (SendBatch c o false transportOk queue msgs w).2.lastError = w.lastError ∧
        countErrorCb (SendBatch c o false transportOk queue msgs w).2.events =
          countErrorCb w.events) ∧
      (∀ e, (SendBatch c o true transportOk queue msgs w).1 = .error e →
        (SendBatch c o true transportOk queue msgs w).2.errorCount = w.errorCount + 1 ∧
        (SendBatch c o true transportOk queue msgs w).2.lastError = some e ∧
        countErrorCb (SendBatch c o true transportOk queue msgs w).2.events =
          countErrorCb w.events + (if o.hasErrorHandler then 1 else 0))) := by
  refine ⟨⟨rfl, rfl, rfl, countErrorCb_gate w⟩, ?_, ?_⟩
  · intro e hres
    have hstate := sendCore_state c (sendMessageInternal c o transportOk queue msg ttl)
      ((w.now).2.log .rateWait)
    have hop := sendMessageInternal_fields c o transportOk queue msg ttl
      ((w.now).2.log .rateWait)
    have hw : SendMessageWithTTL c o true transportOk queue msg ttl w =
        finishSingle o queue w.clock ttl
          (sendCore c (sendMessageInternal c o transportOk queue msg ttl)
            ((w.now).2.log .rateWait)) := rfl
    rw [hw] at hres
    generalize hgen : sendCore c (sendMessageInternal c o transportOk queue msg ttl)
      ((w.now).2.log .rateWait) = px at hstate hres hw
    have heq := finishSingle_error o queue w.clock ttl px e
      (finishSingle_inv o queue w.clock ttl px e hres)
    rw [hw, heq]
    have hf := recordFailure_fields o e { px.2.2 with breaker := px.2.1 }
    obtain ⟨ha, hb, hc⟩ : px.2.2.errorCount = w.errorCount ∧
        px.2.2.lastError = w.lastError ∧
        countErrorCb px.2.2.events = countErrorCb w.events := by
      rcases hstate with hcase | hcase
      · rw [hcase]
        exact ⟨rfl, rfl, countErrorCb_gate w⟩
      · rw [hcase]
        exact ⟨hop.1, hop.2.1, hop.2.2.trans (countErrorCb_gate w)⟩
    refine ⟨hf.1.trans ?_, hf.2.1, hf.2.2.trans ?_⟩
    · show px.2.2.errorCount + 1 = w.errorCount + 1
      rw [ha]
    · show countErrorCb px.2.2.events + _ = _
      rw [hc]
  · intro hne
    have h0 : ¬(msgs.length = 0) := by
      simpa using hne
    have hA : SendBatch c o false transportOk queue msgs w =
        (.error .rateLimited, (w.now).2.log .rateWait) := by
      unfold SendBatch
      rw [if_neg h0]
      rfl
    have hB : SendBatch c o true transportOk queue msgs w =
        finishBatch o queue w.clock c.messageTTL msgs.length
          (sendCore c (sendBatchInternal c o transportOk queue msgs)
            ((w.now).2.log .rateWait)) := by
      unfold SendBatch
      rw [if_neg h0]
      rfl
    refine ⟨⟨by rw [hA], by rw [hA]; rfl, by rw [hA]; rfl,
      by rw [hA]; exact countErrorCb_gate w⟩, ?_⟩
    intro e hres
    have hstate := sendCore_state c (sendBatchInternal c o transportOk queue msgs)
      ((w.now).2.log .rateWait)
    have hop := sendBatchInternal_fields c o transportOk queue msgs
      ((w.now).2.log .rateWait)
    rw [hB] at hres
    generalize hgen : sendCore c (sendBatchInternal c o transportOk queue msgs)
      ((w.now).2.log .rateWait) = px at hstate hres hB
    have heq := finishBatch_error o queue w.clock c.messageTTL msgs.length px e
      (finishBatch_inv o queue w.clock c.messageTTL msgs.length px e hres)
    rw [hB, heq]
    have hf := recordFailure_fields o e { px.2.2 with breaker := px.2.1 }
    obtain ⟨ha, hb, hc⟩ : px.2.2.errorCount = w.errorCount ∧
        px.2.2.lastError = w.lastError ∧
        countErrorCb px.2.2.events = countErrorCb w.events := by
      rcases hstate with hcase | hcase
      · rw [hcase]
        exact ⟨rfl, rfl, countErrorCb_gate w⟩
      · rw [hcase]
        exact ⟨hop.1, hop.2.1, hop.2.2.trans (countErrorCb_gate w)⟩
    refine ⟨hf.1.trans ?_, hf.2.1, hf.2.2.trans ?_⟩
    · show px.2.2.errorCount + 1 = w.errorCount + 1
      rw [ha]
    · show countErrorCb px.2.2.events + _ = _
      rw [hc]

/-- When every payload serializes, the builder assigns consecutive fresh
ids and consecutive clock samples, the configured default TTL throughout,
and advances the id/clock counters by the batch size. -/
theorem buildEnvelopes_ok (c : Config) (queue : String)
    (msgs : List (Option GoValue)) : ∀ (i : Nat) (w : World) (envs : List Envelope),
    (buildEnvelopes c queue msgs i w).1 = .ok envs →
    envs.map (fun env => env.id) = List.range' w.uuidCtr msgs.length ∧
    envs.map (fun env => env.timestamp) = List.range' w.clock msgs.length ∧
    (∀ env ∈ envs, env.ttl = c.messageTTL ∧ env.queue = queue ∧ env.retries = 0) ∧
    (buildEnvelopes c queue msgs i w).2.uuidCtr = w.uuidCtr + msgs.length ∧
    (buildEnvelopes c queue msgs i w).2.clock = w.clock + msgs.length := by
  induction msgs with
  | nil =>
      intro i w envs h
      simp only [buildEnvelopes, Except.ok.injEq] at h
      subst h
      simp [buildEnvelopes]
  | cons msg rest ih =>
      intro i w envs h
      unfold buildEnvelopes at h ⊢
      cases hs : Serialize msg with
      | error e => exact absurd h (by simp [hs])
      | ok payload =>
          simp only [hs] at h ⊢
          cases hr : (buildEnvelopes c queue rest (i + 1) ((w.newUuid).2.now).2).1 with
          | error e =>
              simp only [hr] at h
              exact absurd h (by simp)
          | ok envs2 =>
              simp only [hr] at h
              simp only [Except.ok.injEq] at h
              subst h
              obtain ⟨h1, h2, h3, h4, h5⟩ := ih (i + 1) ((w.newUuid).2.now).2 envs2 hr
              simp only [hr]
              refine ⟨?_, ?_, ?_, ?_, ?_⟩
              · simp only [List.length_cons]
                rw [List.range'_succ]
                simp only [List.map_cons, h1]
                rfl
              · simp only [List.length_cons]
                rw [List.range'_succ]
                simp only [List.map_cons, h2]
                rfl
              · intro env henv
                rcases List.mem_cons.mp henv with rfl | henv2
                · exact ⟨rfl, rfl, rfl⟩
                · exact h3 env henv2
              · rw [h4]
                show w.uuidCtr + 1 + rest.length = w.uuidCtr + (rest.length + 1)
                omega
              · rw [h5]
                show w.clock + 1 + rest.length = w.clock + (rest.length + 1)
                omega

/-- C5 (amended): for a batch whose payloads all serialize, `SendBatch`'s
builder creates exactly N envelopes, with pairwise-distinct ids, each
carrying the configured default TTL; the created-at timestamps are not one
shared submission timestamp: each envelope carries its own clock sample,
the N samples being consecutive (strictly increasing in batch order). -/
theorem batch_envelopes (c : Config) (queue : String)
    (msgs : List (Option GoValue)) (w : World) (envs : List Envelope)
    (h : (buildEnvelopes c queue msgs 0 w).1 = .ok envs) :
    envs.length = msgs.length ∧
    (envs.map (fun env => env.id)).Nodup ∧
    envs.map (fun env => env.timestamp) = List.range' w.clock msgs.length ∧
    (∀ env ∈ envs, env.ttl = c.messageTTL) := by
  obtain ⟨h1, h2, h3, -⟩ := buildEnvelopes_ok c queue msgs 0 w envs h
  refine ⟨?_, ?_, h2, fun env henv => (h3 env henv).1⟩
  · have := congrArg List.length h1
    simpa using this
  · rw [h1]
    exact List.nodup_range' w.uuidCtr msgs.length

/-- Witness for the amended C5 at a concrete two-message batch. -/
theorem batch_envelopes_witness :
    (buildEnvelopes defaultConfig "q" [some (.str [7]), some (.str [8])] 0
        initialWorld).1 =
      .ok [⟨0, "q", [7], 100, defaultConfig.messageTTL, 0⟩,
           ⟨1, "q", [8], 101, defaultConfig.messageTTL, 0⟩] ∧
    (([⟨0, "q", [7], 100, defaultConfig.messageTTL, 0⟩,
       ⟨1, "q", [8], 101, defaultConfig.messageTTL, 0⟩] : List Envelope).map
        (fun env => env.id)).Nodup :=
  ⟨rfl, (batch_envelopes defaultConfig "q" [some (.str [7]), some (.str [8])]
    initialWorld
    [⟨0, "q", [7], 100, defaultConfig.messageTTL, 0⟩,
     ⟨1, "q", [8], 101, defaultConfig.messageTTL, 0⟩] rfl).2.1⟩

/-! ### Success-path lemmas -/

/-- The `MessageID`s of the success callbacks in a trace, in order. -/
def successCbIds : List Event → List Nat
  | [] => []
  | .successCb _ _ mid _ _ :: rest => mid :: successCbIds rest
  | _ :: rest => successCbIds rest

theorem successCbIds_append (a b : List Event) :
    successCbIds (a ++ b) = successCbIds a ++ successCbIds b := by
  induction a with
  | nil => rfl
  | cons ev rest ih => cases ev <;> simp [successCbIds, ih]

/-- The success-callback events the batch loop produces: positions from `i`,
fresh `MessageID`s from `ctr`. -/
def cbEvents (queue : String) (st : Nat) (ttl : Int) : Nat → Nat → Nat → List Event
  | _, 0, _ => []
  | i, k + 1, ctr =>
      .successCb queue i ctr st ttl :: cbEvents queue st ttl (i + 1) k (ctr + 1)

theorem successCbIds_cbEvents (queue : String) (st : Nat) (ttl : Int)
    (k : Nat) : ∀ (i ctr : Nat),
    successCbIds (cbEvents queue st ttl i k ctr) = List.range' ctr k := by
  induction k with
  | zero => intro i ctr; rfl
  | succ k ih =>
      intro i ctr
      rw [List.range'_succ]
      simp [cbEvents, successCbIds, ih]

theorem logSuccessCbs_run (queue : String) (st : Nat) (ttl : Int)
    (k : Nat) : ∀ (i : Nat) (w : World),
    (logSuccessCbs queue st ttl i k w).events =
      w.events ++ cbEvents queue st ttl i k w.uuidCtr := by
  induction k with
  | zero => intro i w; simp [logSuccessCbs, cbEvents]
  | succ k ih =>
      intro i w
      unfold logSuccessCbs
      rw [ih (i + 1) ((w.newUuid).2.log (.successCb queue i (w.newUuid).1 st ttl))]
      show (w.events ++ [Event.successCb queue i w.uuidCtr st ttl]) ++
          cbEvents queue st ttl (i + 1) k (w.uuidCtr + 1) =
        w.events ++ cbEvents queue st ttl i (k + 1) w.uuidCtr
      rw [show cbEvents queue st ttl i (k + 1) w.uuidCtr =
        Event.successCb queue i w.uuidCtr st ttl ::
          cbEvents queue st ttl (i + 1) k (w.uuidCtr + 1) from rfl]
      simp

theorem recordSuccessSingle_events (o : Opts) (queue : String) (st : Nat)
    (ttl : Int) (w : World) (hS : o.hasSuccessHandler = true) :
    (recordSuccessSingle o queue st ttl w).events =
      w.events ++ [.successCb queue 0 w.uuidCtr st ttl] := by
  unfold recordSuccessSingle
  simp [hS, World.log, World.now, World.newUuid]

theorem recordSuccessBatch_events (o : Opts) (queue : String) (st : Nat)
    (ttl : Int) (n : Nat) (w : World) (hS : o.hasSuccessHandler = true) :
    (recordSuccessBatch o queue st ttl n w).events =
      w.events ++ cbEvents queue st ttl 0 n w.uuidCtr := by
  unfold recordSuccessBatch
  simp only [hS, if_true]
  rw [logSuccessCbs_run]
  rfl

theorem sendCore_closed (c : Config) (op : World → Except SendError Unit × World)
    (w1 : World) (hst : w1.breaker.state = .closed)
    (hexp : w1.breaker.expiry = 0 ∨ w1.clock < w1.breaker.expiry) :
    (sendCore c op w1).1 = (op w1).1 ∧ (sendCore c op w1).2.2 = (op w1).2 := by
  unfold sendCore
  exact execute_closed c.breakerCfg w1.breaker w1.clock SendError.circuitOpen
    SendError.tooManyRequests op w1 hst hexp

/-- C10: on every successful send with an installed success handler, the
`MessageID` in the callback metadata is a UUID generated after (and distinct
from) the envelope id that was actually serialized and pushed: in the single
send the callback carries the next fresh id, not the envelope's; in a batch
of N messages the N callback ids form the fresh range after the N envelope
ids and are disjoint from them. -/
theorem success_metadata_fresh (c : Config) (o : Opts) (queue : String)
    (msg : Option GoValue) (payload : List Int) (msgs : List (Option GoValue))
    (envs : List Envelope) (ttl : Int) (w : World)
    (hS : o.hasSuccessHandler = true)
    (hbr : w.breaker.state = .closed)
    (hexp : w.breaker.expiry = 0 ∨ w.clock + 1 < w.breaker.expiry) :
    (Serialize msg = .ok payload →
      (SendMessageWithTTL c o true true queue msg ttl w).1 = .ok () ∧
      (SendMessageWithTTL c o true true queue msg ttl w).2.events =
        w.events ++ [.rateWait,
          .transportExec (getQueueKey o queue)
            [⟨w.uuidCtr, queue, payload, w.clock + 1, ttl, 0⟩] ttl true,
          .successCb queue 0 (w.uuidCtr + 1) w.clock ttl] ∧
      w.uuidCtr + 1 ≠ w.uuidCtr) ∧
    (msgs ≠ [] →
      (buildEnvelopes c queue msgs 0 ((w.now).2.log .rateWait)).1 = .ok envs →
      (SendBatch c o true true queue msgs w).1 = .ok () ∧
      successCbIds (SendBatch c o true true queue msgs w).2.events =
        successCbIds w.events ++
          List.range' (w.uuidCtr + msgs.length) msgs.length ∧
      envs.map (fun env => env.id) = List.range' w.uuidCtr msgs.length ∧
      (∀ a ∈ List.range' (w.uuidCtr + msgs.length) msgs.length,
        a ∉ List.range' w.uuidCtr msgs.length)) := by
  constructor
  · intro hser
    have hw : SendMessageWithTTL c o true true queue msg ttl w =
        finishSingle o queue w.clock ttl
          (sendCore c (sendMessageInternal c o true queue msg ttl)
            ((w.now).2.log .rateWait)) := rfl
    have hop1 : (sendMessageInternal c o true queue msg ttl
        ((w.now).2.log .rateWait)).1 = .ok () := by
      unfold sendMessageInternal
      simp only [hser]
      rfl
    have hopE : (sendMessageInternal c o true queue msg ttl
        ((w.now).2.log .rateWait)).2.events =
        (w.events ++ [Event.rateWait]) ++
          [Event.transportExec (getQueueKey o queue)
            [⟨w.uuidCtr, queue, payload, w.clock + 1, ttl, 0⟩] ttl true] := by
      unfold sendMessageInternal
      simp only [hser]
      rfl
    have hopU : (sendMessageInternal c o true queue msg ttl
        ((w.now).2.log .rateWait)).2.uuidCtr = w.uuidCtr + 1 := by
      unfold sendMessageInternal
      simp only [hser]
      rfl
    have hcl := sendCore_closed c (sendMessageInternal c o true queue msg ttl)
      ((w.now).2.log .rateWait) hbr hexp
    have hok : (sendCore c (sendMessageInternal c o true queue msg ttl)
        ((w.now).2.log .rateWait)).1 = .ok () := hcl.1.trans hop1
    have hfin := finishSingle_ok o queue w.clock ttl _ hok
    refine ⟨by rw [hw, hfin], ?_, by omega⟩
    rw [hw, hfin]
    dsimp only
    rw [recordSuccessSingle_events o queue w.clock ttl _ hS]
    dsimp only
    rw [hcl.2, hopE, hopU]
    simp
  · intro hne hbuild
    have h0 : ¬(msgs.length = 0) := by simpa using hne
    have hB : SendBatch c o true true queue msgs w =
        finishBatch o queue w.clock c.messageTTL msgs.length
          (sendCore c (sendBatchInternal c o true queue msgs)
            ((w.now).2.log .rateWait)) := by
      unfold SendBatch
      rw [if_neg h0]
      rfl
    have hop1 : (sendBatchInternal c o true queue msgs
        ((w.now).2.log .rateWait)).1 = .ok () := by
      unfold sendBatchInternal
      simp only [hbuild]
      rfl
    have hopE : (sendBatchInternal c o true queue msgs
        ((w.now).2.log .rateWait)).2.events =
        (w.events ++ [Event.rateWait]) ++
          [Event.transportExec (getQueueKey o queue) envs c.messageTTL true] := by
      unfold sendBatchInternal
      simp only [hbuild]
      have hf := (buildEnvelopes_fields c queue msgs 0 ((w.now).2.log .rateWait)).2.2
      show (buildEnvelopes c queue msgs 0 ((w.now).2.log .rateWait)).2.events ++
          [Event.transportExec (getQueueKey o queue) envs c.messageTTL true] = _
      rw [hf]
      rfl
    have hu := (buildEnvelopes_ok c queue msgs 0 ((w.now).2.log .rateWait) envs
      hbuild).2.2.2.1
    have hopUc : (sendBatchInternal c o true queue msgs
        ((w.now).2.log .rateWait)).2.uuidCtr = w.uuidCtr + msgs.length := by
      unfold sendBatchInternal
      simp only [hbuild]
      show (buildEnvelopes c queue msgs 0 ((w.now).2.log .rateWait)).2.uuidCtr =
        w.uuidCtr + msgs.length
      rw [hu]
      rfl
    have hcl := sendCore_closed c (sendBatchInternal c o true queue msgs)
      ((w.now).2.log .rateWait) hbr hexp
    have hok : (sendCore c (sendBatchInternal c o true queue msgs)
        ((w.now).2.log .rateWait)).1 = .ok () := hcl.1.trans hop1
    have hfin := finishBatch_ok o queue w.clock c.messageTTL msgs.length _ hok
    have hids := (buildEnvelopes_ok c queue msgs 0 ((w.now).2.log .rateWait) envs
      hbuild).1
    refine ⟨by rw [hB, hfin], ?_, hids, ?_⟩
    · rw [hB, hfin]
      dsimp only
      rw [recordSuccessBatch_events o queue w.clock c.messageTTL msgs.length _ hS]
      dsimp only
      rw [hcl.2, hopE, hopUc]
      rw [successCbIds_append, successCbIds_append, successCbIds_append,
        successCbIds_cbEvents]
      simp [successCbIds]
    · intro a ha hmem
      rw [List.mem_range'_1] at ha hmem
      omega

/-- Witness for C10 on a fresh sender: the envelope id is 0, the callback
`MessageID` is 1. -/
theorem success_metadata_fresh_witness :
    (SendMessageWithTTL defaultConfig ⟨false, true, none⟩ true true "q"
        (some (.str [9])) second initialWorld).1 = .ok () ∧
    (SendMessageWithTTL defaultConfig ⟨false, true, none⟩ true true "q"
        (some (.str [9])) second initialWorld).2.events =
      initialWorld.events ++ [.rateWait,
        .transportExec (getQueueKey ⟨false, true, none⟩ "q")
          [⟨initialWorld.uuidCtr, "q", [9], initialWorld.clock + 1, second, 0⟩]
          second true,
        .successCb "q" 0 (initialWorld.uuidCtr + 1) initialWorld.clock second] ∧
    initialWorld.uuidCtr + 1 ≠ initialWorld.uuidCtr :=
  (success_metadata_fresh defaultConfig ⟨false, true, none⟩ "q" (some (.str [9]))
    [9] [] [] second initialWorld rfl rfl (Or.inr (by decide))).1 rfl

/-- Witness for the amended C3: a transport failure on a fresh sender bumps
the counter to 1, records the error, and fires the callback once. -/
theorem failure_accounting_witness :
    (SendMessageWithTTL defaultConfig ⟨true, false, none⟩ true false "q"
        (some (.str [5])) second initialWorld).2.errorCount =
      initialWorld.errorCount + 1 ∧
    (SendMessageWithTTL defaultConfig ⟨true, false, none⟩ true false "q"
        (some (.str [5])) second initialWorld).2.lastError =
      some (.transport "q") ∧
    countErrorCb (SendMessageWithTTL defaultConfig ⟨true, false, none⟩ true false "q"
        (some (.str [5])) second initialWorld).2.events =
      countErrorCb initialWorld.events +
        (if (⟨true, false, none⟩ : Opts).hasErrorHandler then 1 else 0) :=
  (failure_accounting defaultConfig ⟨true, false, none⟩ false "q"
    (some (.str [5])) [] second initialWorld).2.1 (.transport "q") rfl

end ValkeySender
